import Mathlib

/-!
Shallow embedding of the milestone-update operation of
`src/routes/milestones/update.js` (tc-project-service).

Dates are modelled as integers counting whole days since 1970-01-01 UTC
(one unit = one day, values at UTC midnight); `moment.utc(d).add(n, 'days')`
becomes integer addition.  A JSON `null` date is `Option.none`; a request
field that may be absent is wrapped in one more `Option`, so a supplied
`completionDate: null` is `some none` and an absent field is `none`.
Statuses are the strings of `MILESTONE_STATUS` in `constants.js`.
The database state relevant to one update is: the timeline row, the edited
milestone row, and the list of the other milestone rows.  `Except` models
the promise-rejection path: an `ApiError` aborts the transaction, so no
state change accompanies it.
-/

namespace MilestoneUpdate

/-- MILESTONE_STATUS.ACTIVE of constants.js. -/
def ACTIVE : String := "active"

/-- MILESTONE_STATUS.COMPLETED of constants.js. -/
def COMPLETED : String := "completed"

/-- A milestone row: the fields of the Milestone model that update.js reads
or writes (free-text and `details` fields are omitted: no claim depends on
them and update.js only copies them through). -/
structure Milestone where
  id : Nat
  timelineId : Nat
  order : Int
  duration : Int
  startDate : Int
  endDate : Int
  completionDate : Option Int
  status : String
  hidden : Bool
  updatedBy : Nat
deriving Repr, DecidableEq, Inhabited

/-- The timeline row fields that update.js touches (lines 229-232). -/
structure Timeline where
  endDate : Int
  updatedBy : Nat
deriving Repr, DecidableEq, Inhabited

/-- The request body `req.body.param` after Joi validation, restricted to the
fields the scheduling logic reads.  `startDate`/`endDate` are forbidden
inputs and so absent.  For `completionDate`, the outer `Option` is presence
in the request and the inner one is JSON null. -/
structure UpdateParam where
  duration : Option Int := none
  completionDate : Option (Option Int) := none
  status : Option String := none
  order : Option Int := none
  hidden : Option Bool := none
deriving Repr, DecidableEq, Inhabited

/-- A rejected promise carrying an HTTP status (update.js lines 134-143). -/
structure ApiError where
  status : Nat
  message : String
deriving Repr, DecidableEq, Inhabited

/-- Line 146: `entityToUpdate.duration && entityToUpdate.duration !== milestone.duration`.
Joi guarantees `duration >= 1`, so truthiness is presence. -/
def durationChanged (m : Milestone) (p : UpdateParam) : Bool :=
  match p.duration with
  | some d => d != m.duration
  | none => false

/-- Line 147: `entityToUpdate.status && entityToUpdate.status !== milestone.status`.
Joi strings are non-empty, so truthiness is presence. -/
def statusChanged (m : Milestone) (p : UpdateParam) : Bool :=
  match p.status with
  | some s => s != m.status
  | none => false

/-- Lines 148-149: `entityToUpdate.completionDate && !_.isEqual(milestone.completionDate,
entityToUpdate.completionDate)`.  A supplied null is falsy, so only a supplied
non-null date that differs counts. -/
def completionDateChangedReq (m : Milestone) (p : UpdateParam) : Bool :=
  match p.completionDate with
  | some (some d) => some d != m.completionDate
  | _ => false

/-- Line 139: the pre-merge validation guard `entityToUpdate.completionDate &&
entityToUpdate.completionDate < milestone.startDate` (null is falsy). -/
def completionDateInvalid (m : Milestone) (p : UpdateParam) : Bool :=
  match p.completionDate with
  | some (some d) => d < m.startDate
  | _ => false

/-- Lines 146-178: field merge and derivation producing the resolved milestone
that `milestone.update(entityToUpdate)` persists.  Field-by-field:
`endDate` is recomputed from the stored `startDate` when the duration changed
(line 157, before the ACTIVE branch may touch `startDate`); a status change to
COMPLETED defaults `completionDate` to today when the request value is falsy
(line 164); a status change to ACTIVE sets `startDate` to today (line 168);
when the status did not change but a non-null `completionDate` did, the status
is forced to COMPLETED (lines 173-175).  `updatedBy` is stamped from the
acting user (line 119). -/
def resolveUpdate (m : Milestone) (p : UpdateParam) (today : Int) (userId : Nat) :
    Milestone :=
  { m with
    duration := p.duration.getD m.duration
    order := p.order.getD m.order
    hidden := p.hidden.getD m.hidden
    endDate :=
      if durationChanged m p then m.startDate + (p.duration.getD m.duration - 1)
      else m.endDate
    startDate :=
      if statusChanged m p ∧ p.status = some ACTIVE then today else m.startDate
    completionDate :=
      if statusChanged m p ∧ p.status = some COMPLETED then
        match p.completionDate with
        | some (some d) => some d
        | _ => some today
      else
        match p.completionDate with
        | some c => c
        | none => m.completionDate
    status :=
      if ¬ statusChanged m p ∧ completionDateChangedReq m p then COMPLETED
      else p.status.getD m.status
    updatedBy := userId }

/-- Lines 35-37 and 63-65: the next cursor start is one day after the
milestone's `completionDate` when set, else one day after its `endDate`. -/
def milestoneNextStart (m : Milestone) : Int :=
  (match m.completionDate with
   | some c => c
   | none => m.endDate) + 1

/-- The mutable loop state of `updateComingMilestones`: the running start
cursor and the `firstMilestoneFound` flag. -/
structure CascadeState where
  startDate : Int
  firstMilestoneFound : Bool
deriving Repr, DecidableEq, Inhabited

/-- One iteration of the `_.map` body at lines 39-67: set `startDate` when it
differs from the cursor, recompute `endDate` from the cursor and the duration,
activate the milestone when the completion date changed, no earlier milestone
was activated and it is not hidden, and advance the cursor. -/
def cascadeStep (updatedBy : Nat) (completionDateChanged : Bool)
    (st : CascadeState) (m : Milestone) : CascadeState × Milestone :=
  let m1 :=
    if m.startDate != st.startDate then
      { m with startDate := st.startDate, updatedBy := updatedBy }
    else m
  let newEnd := st.startDate + (m.duration - 1)
  let m2 :=
    if m1.endDate != newEnd then
      { m1 with endDate := newEnd, updatedBy := updatedBy }
    else m1
  let activate := !st.firstMilestoneFound && completionDateChanged && !m.hidden
  let m3 := if activate then { m2 with status := ACTIVE } else m2
  ({ startDate := milestoneNextStart m3,
     firstMilestoneFound := st.firstMilestoneFound || activate }, m3)

/-- The loop of lines 39-67 over the sorted downstream milestones. -/
def cascadeList (updatedBy : Nat) (completionDateChanged : Bool) :
    CascadeState → List Milestone → List Milestone
  | _, [] => []
  | st, m :: ms =>
    let p := cascadeStep updatedBy completionDateChanged st m
    p.2 :: cascadeList updatedBy completionDateChanged p.1 ms

/-- Line 31: the `findAll` predicate — same timeline, order strictly greater
than the updated milestone's. -/
def isComing (updated m : Milestone) : Bool :=
  m.timelineId == updated.timelineId && updated.order < m.order

/-- Comparison used by the sort of line 34: ascending milestone order. -/
def leOrder (a b : Milestone) : Prop :=
  a.order ≤ b.order

instance : DecidableRel leOrder := fun a b => inferInstanceAs (Decidable (a.order ≤ b.order))

instance : IsTotal Milestone leOrder := ⟨fun a b => le_total a.order b.order⟩

instance : IsTrans Milestone leOrder := ⟨fun _ _ _ h h2 => le_trans h h2⟩

/-- Lines 28-34: the downstream milestones, sorted ascending by order
(`_.sortBy(affectedMilestones, 'order')`; lodash sortBy is stable, as is
insertion sort with a non-strict comparison). -/
def comingMilestones (updated : Milestone) (rows : List Milestone) :
    List Milestone :=
  (rows.filter (isComing updated)).insertionSort leOrder

/-- What `updateComingMilestones` leaves behind: the rewritten downstream rows
and the milestone its promise resolves to. -/
structure CascadeResult where
  updatedMilestones : List Milestone
  lastTimelineMilestone : Milestone
deriving Repr, DecidableEq, Inhabited

/-- Lines 25-72 (`updateComingMilestones`): cascade endDate/completionDate
changes to all milestones of the timeline with a greater order.  `rows` is the
set of other milestone rows in the database (the edited row has order equal to
`updatedMilestone.order`, so the `$gt` filter excludes it either way).  The
promise resolves to the last updated milestone, or to `updatedMilestone` when
none exists (line 70). -/
def updateComingMilestones (originalMilestone updatedMilestone : Milestone)
    (rows : List Milestone) : CascadeResult :=
  let completionDateChanged :=
    originalMilestone.completionDate != updatedMilestone.completionDate
  let outs := cascadeList updatedMilestone.updatedBy completionDateChanged
    { startDate := milestoneNextStart updatedMilestone, firstMilestoneFound := false }
    (comingMilestones updatedMilestone rows)
  { updatedMilestones := outs
    lastTimelineMilestone := outs.getLast?.getD updatedMilestone }

/-- Lines 229-233: persist the timeline's `endDate`/`updatedBy` when the last
milestone's `endDate` differs from the stored one, else leave it alone. -/
def syncTimeline (timeline : Timeline) (lastTimelineMilestone : Milestone) :
    Timeline :=
  if lastTimelineMilestone.endDate != timeline.endDate then
    { timeline with
      endDate := lastTimelineMilestone.endDate
      updatedBy := lastTimelineMilestone.updatedBy }
  else timeline

/-- Lines 184-222: the order reindexer.  Skipped when the order did not change
(line 185); otherwise other rows at the new order are counted (lines 189-195,
with the timelineId and `$ne: id` filters) and, when the slot is occupied, a
single range update shifts the displaced chain (lines 203-221). -/
def reindexOrders (original updated : Milestone) (rows : List Milestone) :
    List Milestone :=
  if original.order == updated.order then rows
  else if (rows.filter fun m =>
      m.timelineId == updated.timelineId && m.id != updated.id &&
        m.order == updated.order).length == 0 then rows
  else if original.order < updated.order then
    rows.map fun m =>
      if m.timelineId == updated.timelineId && m.id != updated.id &&
          original.order + 1 ≤ m.order && m.order ≤ updated.order then
        { m with order := m.order - 1 }
      else m
  else
    rows.map fun m =>
      if m.timelineId == updated.timelineId && m.id != updated.id &&
          updated.order ≤ m.order && m.order ≤ original.order - 1 then
        { m with order := m.order + 1 }
      else m

/-- The database state after a committed update: the pre-edit snapshot, the
persisted edited milestone, the other rows, and the timeline row. -/
structure UpdateResult where
  original : Milestone
  updated : Milestone
  otherMilestones : List Milestone
  timeline : Timeline
deriving Repr, DecidableEq, Inhabited

/-- Lines 128-238: the transaction body.  `milestone` is the row found by
`(timelineId, id)` (the 404 branch is the row's absence and is not modelled:
every claim starts from an existing row); `others` are all the other milestone
rows.  The guard of line 139 rejects with 422; then the merge (lines 146-178),
the conditional reindex (lines 184-222), and — only when `completionDate` or
`duration` changed between the original and updated snapshots (line 226) —
the cascade and the timeline sync.  The cascade rewrites exactly the rows
matching the line 31 filter, so the result keeps the others as the reindexer
left them. -/
def updateMilestone (timeline : Timeline) (milestone : Milestone)
    (others : List Milestone) (p : UpdateParam) (today : Int) (userId : Nat) :
    Except ApiError UpdateResult :=
  if completionDateInvalid milestone p then
    .error { status := 422
             message := "The milestone completionDate should be greater or equal than the startDate." }
  else
    let original := milestone
    let updated := resolveUpdate milestone p today userId
    let shifted := reindexOrders original updated others
    if original.completionDate != updated.completionDate ||
        original.duration != updated.duration then
      let res := updateComingMilestones original updated shifted
      .ok { original := original
            updated := updated
            otherMilestones :=
              (shifted.filter fun m => !(isComing updated m)) ++ res.updatedMilestones
            timeline := syncTimeline timeline res.lastTimelineMilestone }
    else
      .ok { original := original
            updated := updated
            otherMilestones := shifted
            timeline := timeline }

/-- Projection of a successful update's result (the transaction committed). -/
def okResult (e : Except ApiError UpdateResult) : UpdateResult :=
  e.toOption.getD default

/-! Concrete rows used to instantiate the scenarios.  Day numbers:
2024-01-01 is day 19723 since 1970-01-01, so 2024-01-10 is 19732,
2024-01-11 is 19733, 2024-01-13 is 19735, 2024-01-14 is 19736 and
2024-01-17 is 19739. -/

/-- Scenario A, milestone at order 1: duration 5, startDate 2024-01-01. -/
def mA1 : Milestone :=
  { id := 1, timelineId := 1, order := 1, duration := 5, startDate := 19723
    endDate := 19727, completionDate := none, status := "reviewed"
    hidden := false, updatedBy := 2 }

/-- Scenario A, milestone at order 2: duration 3. -/
def mA2 : Milestone :=
  { id := 2, timelineId := 1, order := 2, duration := 3, startDate := 19728
    endDate := 19730, completionDate := none, status := "planned"
    hidden := false, updatedBy := 2 }

/-- Scenario A, milestone at order 3: duration 4. -/
def mA3 : Milestone :=
  { id := 3, timelineId := 1, order := 3, duration := 4, startDate := 19731
    endDate := 19734, completionDate := none, status := "planned"
    hidden := false, updatedBy := 2 }

/-- Scenario A timeline, ending with milestone 3. -/
def tlA : Timeline := { endDate := 19734, updatedBy := 2 }

/-- Scenario A request: set the duration of milestone 1 to 10. -/
def pA : UpdateParam := { duration := some 10 }

/-- A date-consistent stored milestone (endDate 104 = 100 + 5 - 1). -/
def mAct : Milestone :=
  { id := 1, timelineId := 1, order := 1, duration := 5, startDate := 100
    endDate := 104, completionDate := none, status := "planned"
    hidden := false, updatedBy := 2 }

/-- Timeline owning only `mAct`. -/
def tlAct : Timeline := { endDate := 104, updatedBy := 2 }

/-- Request transitioning the status to ACTIVE. -/
def pAct : UpdateParam := { status := some ACTIVE }

/-- Scenario B rows: milestone at order 1 (not moved). -/
def mOrd1 : Milestone :=
  { id := 1, timelineId := 1, order := 1, duration := 2, startDate := 100
    endDate := 101, completionDate := none, status := "completed"
    hidden := false, updatedBy := 2 }

/-- Scenario B rows: milestone at order 2, the one being moved to order 4. -/
def mOrd2 : Milestone :=
  { id := 2, timelineId := 1, order := 2, duration := 3, startDate := 102
    endDate := 104, completionDate := none, status := "active"
    hidden := false, updatedBy := 2 }

/-- Scenario B rows: milestone at order 3. -/
def mOrd3 : Milestone :=
  { id := 3, timelineId := 1, order := 3, duration := 4, startDate := 105
    endDate := 108, completionDate := none, status := "planned"
    hidden := false, updatedBy := 2 }

/-- Scenario B rows: milestone at order 4 (the occupied target slot). -/
def mOrd4 : Milestone :=
  { id := 4, timelineId := 1, order := 4, duration := 5, startDate := 109
    endDate := 113, completionDate := none, status := "planned"
    hidden := false, updatedBy := 2 }

/-- Scenario B timeline. -/
def tlOrd : Timeline := { endDate := 113, updatedBy := 2 }

/-- Scenario B request: move the milestone to order 4. -/
def pOrd : UpdateParam := { order := some 4 }

/-- Scenario E rows: completed first milestone whose completionDate gets cleared. -/
def mE1 : Milestone :=
  { id := 1, timelineId := 1, order := 1, duration := 5, startDate := 19723
    endDate := 19727, completionDate := some 19728, status := "completed"
    hidden := false, updatedBy := 2 }

/-- Scenario E rows: hidden second milestone (skipped for activation). -/
def mE2 : Milestone :=
  { id := 2, timelineId := 1, order := 2, duration := 3, startDate := 19729
    endDate := 19731, completionDate := none, status := "planned"
    hidden := true, updatedBy := 2 }

/-- Scenario E rows: visible third milestone (the one activated). -/
def mE3 : Milestone :=
  { id := 3, timelineId := 1, order := 3, duration := 4, startDate := 19732
    endDate := 19735, completionDate := none, status := "planned"
    hidden := false, updatedBy := 2 }

/-- Scenario E timeline. -/
def tlE : Timeline := { endDate := 19735, updatedBy := 2 }

/-- Request clearing the completionDate by supplying JSON null. -/
def pE : UpdateParam := { completionDate := some none }

end MilestoneUpdate

namespace MilestoneUpdate

/-- C1: updating milestone 1's duration to 10 in a timeline with milestones at
orders 1,2,3 of durations 5,3,4 days and milestone 1 starting 2024-01-01 gives
milestone 1 endDate 2024-01-10 (day 19732), milestone 2 startDate 2024-01-11
(19733) and endDate 2024-01-13 (19735), milestone 3 startDate 2024-01-14
(19736) and endDate 2024-01-17 (19739), and timeline endDate 2024-01-17. -/
theorem scenarioA_duration_cascade :
    (updateMilestone tlA mA1 [mA2, mA3] pA 19800 7).toOption.isSome = true ∧
    (okResult (updateMilestone tlA mA1 [mA2, mA3] pA 19800 7)).updated.endDate = 19732 ∧
    ((okResult (updateMilestone tlA mA1 [mA2, mA3] pA 19800 7)).otherMilestones.map
        fun m => (m.id, m.startDate, m.endDate)) =
      [(2, 19733, 19735), (3, 19736, 19739)] ∧
    (okResult (updateMilestone tlA mA1 [mA2, mA3] pA 19800 7)).timeline.endDate = 19739 := by
  decide

end MilestoneUpdate

namespace MilestoneUpdate

/-! Helper lemmas about the cascade loop, the sort and the reindexer. -/

theorem cascadeStep_snd_id (u : Nat) (cd : Bool) (st : CascadeState) (m : Milestone) :
    (cascadeStep u cd st m).2.id = m.id := by
  simp only [cascadeStep]
  split_ifs <;> rfl

theorem cascadeStep_snd_startDate (u : Nat) (cd : Bool) (st : CascadeState) (m : Milestone) :
    (cascadeStep u cd st m).2.startDate = st.startDate := by
  simp only [cascadeStep]
  split_ifs <;> simp_all

theorem cascadeStep_snd_endDate (u : Nat) (cd : Bool) (st : CascadeState) (m : Milestone) :
    (cascadeStep u cd st m).2.endDate = st.startDate + (m.duration - 1) := by
  simp only [cascadeStep]
  split_ifs <;> simp_all

theorem cascadeStep_snd_status (u : Nat) (cd : Bool) (st : CascadeState) (m : Milestone) :
    (cascadeStep u cd st m).2.status =
      if (!st.firstMilestoneFound && cd && !m.hidden) = true then ACTIVE else m.status := by
  simp only [cascadeStep]
  split_ifs <;> simp_all

theorem cascadeStep_fst (u : Nat) (cd : Bool) (st : CascadeState) (m : Milestone) :
    (cascadeStep u cd st m).1 =
      { startDate := milestoneNextStart (cascadeStep u cd st m).2
        firstMilestoneFound := st.firstMilestoneFound || (cd && !m.hidden) } := by
  simp only [cascadeStep]
  split_ifs <;> simp_all <;> cases st.firstMilestoneFound <;> simp_all

theorem cascadeStep_snd_order (u : Nat) (cd : Bool) (st : CascadeState) (m : Milestone) :
    (cascadeStep u cd st m).2.order = m.order := by
  simp only [cascadeStep]; split_ifs <;> rfl

theorem cascadeStep_snd_duration (u : Nat) (cd : Bool) (st : CascadeState) (m : Milestone) :
    (cascadeStep u cd st m).2.duration = m.duration := by
  simp only [cascadeStep]; split_ifs <;> rfl

theorem cascadeStep_snd_completionDate (u : Nat) (cd : Bool) (st : CascadeState) (m : Milestone) :
    (cascadeStep u cd st m).2.completionDate = m.completionDate := by
  simp only [cascadeStep]; split_ifs <;> rfl

theorem cascadeStep_snd_hidden (u : Nat) (cd : Bool) (st : CascadeState) (m : Milestone) :
    (cascadeStep u cd st m).2.hidden = m.hidden := by
  simp only [cascadeStep]; split_ifs <;> rfl

theorem cascadeStep_snd_timelineId (u : Nat) (cd : Bool) (st : CascadeState) (m : Milestone) :
    (cascadeStep u cd st m).2.timelineId = m.timelineId := by
  simp only [cascadeStep]; split_ifs <;> rfl

theorem cascadeList_length (u : Nat) (cd : Bool) :
    ∀ (st : CascadeState) (ms : List Milestone),
      (cascadeList u cd st ms).length = ms.length := by
  intro st ms
  induction ms generalizing st with
  | nil => rfl
  | cons m t ih => simp [cascadeList, ih]

theorem cascadeList_map_order (u : Nat) (cd : Bool) :
    ∀ (st : CascadeState) (ms : List Milestone),
      (cascadeList u cd st ms).map (fun x => x.order) = ms.map fun x => x.order := by
  intro st ms
  induction ms generalizing st with
  | nil => rfl
  | cons m t ih => simp [cascadeList, ih, cascadeStep_snd_order]

theorem cascadeList_mem_consistent (u : Nat) (cd : Bool) :
    ∀ (st : CascadeState) (ms : List Milestone),
      ∀ x ∈ cascadeList u cd st ms, x.endDate = x.startDate + (x.duration - 1) := by
  intro st ms
  induction ms generalizing st with
  | nil => intro x hx; simp [cascadeList] at hx
  | cons m t ih =>
    intro x hx
    simp only [cascadeList, List.mem_cons] at hx
    rcases hx with h | h
    · subst h
      rw [cascadeStep_snd_endDate, cascadeStep_snd_startDate, cascadeStep_snd_duration]
    · exact ih _ x h

theorem cascadeList_status_unchanged (u : Nat) (cd : Bool) :
    ∀ (st : CascadeState) (ms : List Milestone) (i : Nat),
      cd = false ∨ st.firstMilestoneFound = true →
      ((cascadeList u cd st ms).getD i default).status = (ms.getD i default).status := by
  intro st ms
  induction ms generalizing st with
  | nil => intro i h; simp [cascadeList]
  | cons m t ih =>
    intro i h
    match i with
    | 0 =>
      simp only [cascadeList, List.getD_cons_zero, cascadeStep_snd_status]
      rcases h with h | h <;> simp [h]
    | i + 1 =>
      simp only [cascadeList, List.getD_cons_succ]
      apply ih
      rcases h with h | h
      · exact Or.inl h
      · right; rw [cascadeStep_fst]; simp [h]

theorem cascadeList_activation (u : Nat) :
    ∀ (st : CascadeState) (ms : List Milestone) (i : Nat),
      st.firstMilestoneFound = false →
      ((cascadeList u true st ms).getD i default).status ≠ (ms.getD i default).status →
      i < ms.length ∧ (ms.getD i default).hidden = false ∧
        (∀ j, j < i → (ms.getD j default).hidden = true) ∧
        ((cascadeList u true st ms).getD i default).status = ACTIVE := by
  intro st ms
  induction ms generalizing st with
  | nil => intro i hf hne; simp [cascadeList] at hne
  | cons m t ih =>
    intro i hf hne
    by_cases hh : m.hidden
    · match i with
      | 0 =>
        exfalso; apply hne
        simp [cascadeList, cascadeStep_snd_status, hh]
      | i + 1 =>
        simp only [cascadeList, List.getD_cons_succ] at hne ⊢
        have hflag : (cascadeStep u true st m).1.firstMilestoneFound = false := by
          rw [cascadeStep_fst]; simp [hf, hh]
        obtain ⟨h1, h2, h3, h4⟩ := ih _ i hflag hne
        refine ⟨by simpa using Nat.succ_lt_succ h1, h2, ?_, h4⟩
        intro j hj
        match j with
        | 0 => simpa using hh
        | j + 1 => exact h3 j (by omega)
    · match i with
      | 0 =>
        refine ⟨by simp, by simpa using hh, by intro j hj; omega, ?_⟩
        simp [cascadeList, cascadeStep_snd_status, hf, hh]
      | i + 1 =>
        exfalso; apply hne
        simp only [cascadeList, List.getD_cons_succ]
        apply cascadeList_status_unchanged
        right; rw [cascadeStep_fst]; simp [hh]

theorem cascadeList_activation_fires (u : Nat) :
    ∀ (st : CascadeState) (ms : List Milestone) (i : Nat),
      st.firstMilestoneFound = false →
      i < ms.length →
      (ms.getD i default).hidden = false →
      (∀ j, j < i → (ms.getD j default).hidden = true) →
      ((cascadeList u true st ms).getD i default).status = ACTIVE := by
  intro st ms
  induction ms generalizing st with
  | nil => intro i _ h; simp at h
  | cons m t ih =>
    intro i hf hi hnh hpre
    match i with
    | 0 =>
      simp only [List.getD_cons_zero] at hnh
      simp [cascadeList, cascadeStep_snd_status, hf, hnh]
    | i + 1 =>
      have hh : m.hidden = true := by simpa using hpre 0 (by omega)
      simp only [cascadeList, List.getD_cons_succ]
      apply ih
      · rw [cascadeStep_fst]; simp [hf, hh]
      · simpa using hi
      · simpa using hnh
      · intro j hj; simpa using hpre (j + 1) (by omega)

theorem cascadeList_startDate_rec (u : Nat) (cd : Bool) :
    ∀ (st : CascadeState) (ms : List Milestone) (i : Nat), i < ms.length →
      ((cascadeList u cd st ms).getD i default).startDate =
        if i = 0 then st.startDate
        else milestoneNextStart ((cascadeList u cd st ms).getD (i - 1) default) := by
  intro st ms
  induction ms generalizing st with
  | nil => intro i h; simp at h
  | cons m t ih =>
    intro i hi
    match i with
    | 0 => simp [cascadeList, cascadeStep_snd_startDate]
    | i + 1 =>
      simp only [cascadeList, List.getD_cons_succ]
      rw [ih _ i (by simpa using hi)]
      match i with
      | 0 =>
        simp [cascadeStep_fst]
      | i + 1 =>
        simp

end MilestoneUpdate

namespace MilestoneUpdate

theorem resolveUpdate_timelineId (m : Milestone) (p : UpdateParam) (today : Int) (userId : Nat) :
    (resolveUpdate m p today userId).timelineId = m.timelineId := rfl

theorem resolveUpdate_id (m : Milestone) (p : UpdateParam) (today : Int) (userId : Nat) :
    (resolveUpdate m p today userId).id = m.id := rfl

theorem updateComingMilestones_updatedMilestones (o n : Milestone) (rows : List Milestone) :
    (updateComingMilestones o n rows).updatedMilestones =
      cascadeList n.updatedBy (o.completionDate != n.completionDate)
        { startDate := milestoneNextStart n, firstMilestoneFound := false }
        (comingMilestones n rows) := rfl

theorem updateComingMilestones_last (o n : Milestone) (rows : List Milestone) :
    (updateComingMilestones o n rows).lastTimelineMilestone =
      (updateComingMilestones o n rows).updatedMilestones.getLast?.getD n := rfl

theorem reindexOrders_mem (o n : Milestone) (rows : List Milestone) :
    ∀ x ∈ reindexOrders o n rows, ∃ y ∈ rows, x.timelineId = y.timelineId ∧ x.id = y.id := by
  intro x hx
  unfold reindexOrders at hx
  split_ifs at hx
  · exact ⟨x, hx, rfl, rfl⟩
  · exact ⟨x, hx, rfl, rfl⟩
  · rcases List.mem_map.mp hx with ⟨y, hy, rfl⟩
    split <;> exact ⟨y, hy, rfl, rfl⟩
  · rcases List.mem_map.mp hx with ⟨y, hy, rfl⟩
    split <;> exact ⟨y, hy, rfl, rfl⟩

theorem comingMilestones_sorted (n : Milestone) (rows : List Milestone) :
    List.Pairwise leOrder (comingMilestones n rows) :=
  List.sorted_insertionSort leOrder _

theorem comingMilestones_mem (n : Milestone) (rows : List Milestone) (x : Milestone) :
    x ∈ comingMilestones n rows ↔ x ∈ rows.filter (isComing n) :=
  (List.perm_insertionSort leOrder _).mem_iff

theorem pairwise_le_getLast :
    ∀ (l : List Milestone), List.Pairwise leOrder l →
      ∀ x ∈ l, ∀ h : l ≠ [], x.order ≤ (l.getLast h).order := by
  intro l
  induction l with
  | nil => intro _ x hx; exact absurd hx (by simp)
  | cons a t ih =>
    intro hp x hx h
    match t with
    | [] =>
      simp at hx
      simp [hx]
    | b :: t' =>
      rw [List.getLast_cons (by simp)]
      rcases List.mem_cons.mp hx with rfl | hx'
      · have hrel : leOrder x ((b :: t').getLast (by simp)) :=
          List.rel_of_pairwise_cons hp (List.getLast_mem (by simp))
        exact hrel
      · exact ih (List.Pairwise.of_cons hp) x hx' (by simp)

theorem pairwise_leOrder_of_map_order_eq (l1 l2 : List Milestone)
    (h : l1.map (fun x => x.order) = l2.map fun x => x.order)
    (hp : List.Pairwise leOrder l2) : List.Pairwise leOrder l1 := by
  have h2 : List.Pairwise (fun a b : Int => a ≤ b) (l2.map fun x => x.order) :=
    (List.pairwise_map).mpr hp
  rw [← h, List.pairwise_map] at h2
  exact List.Pairwise.imp (fun hab => hab) h2

theorem duration_getD_of_not_changed (m : Milestone) (p : UpdateParam)
    (h : durationChanged m p = false) : p.duration.getD m.duration = m.duration := by
  cases hd : p.duration with
  | none => rfl
  | some d =>
    simp only [durationChanged, hd, bne_eq_false_iff_eq] at h
    simp [h]

theorem reindexOrders_cases (original updated : Milestone) (rows : List Milestone)
    (htl : ∀ x ∈ rows, x.timelineId = updated.timelineId ∧ x.id ≠ updated.id) :
    (original.order = updated.order → reindexOrders original updated rows = rows) ∧
    ((∀ x ∈ rows, x.order ≠ updated.order) → reindexOrders original updated rows = rows) ∧
    (original.order < updated.order → (∃ x ∈ rows, x.order = updated.order) →
      reindexOrders original updated rows = rows.map fun x =>
        if original.order + 1 ≤ x.order ∧ x.order ≤ updated.order then
          { x with order := x.order - 1 } else x) ∧
    (updated.order < original.order → (∃ x ∈ rows, x.order = updated.order) →
      reindexOrders original updated rows = rows.map fun x =>
        if updated.order ≤ x.order ∧ x.order ≤ original.order - 1 then
          { x with order := x.order + 1 } else x) := by
  refine ⟨?_, ?_, ?_, ?_⟩
  · intro h
    simp [reindexOrders, h]
  · intro h
    by_cases heq : original.order = updated.order
    · simp [reindexOrders, heq]
    · have hfil : rows.filter (fun m =>
          m.timelineId == updated.timelineId && m.id != updated.id &&
            m.order == updated.order) = [] := by
        rw [List.filter_eq_nil_iff]
        intro x hx
        simp only [Bool.and_eq_true, beq_iff_eq, bne_iff_ne, not_and]
        intro _
        exact h x hx
      simp [reindexOrders, heq, hfil]
  · intro h1 h2
    have heq : ¬ original.order = updated.order := ne_of_lt h1
    obtain ⟨w, hw, hword⟩ := h2
    have hfil : rows.filter (fun m =>
        m.timelineId == updated.timelineId && m.id != updated.id &&
          m.order == updated.order) ≠ [] := by
      intro hnil
      rw [List.filter_eq_nil_iff] at hnil
      apply hnil w hw
      simp [(htl w hw).1, (htl w hw).2, hword]
    have hlen : ((rows.filter (fun m =>
        m.timelineId == updated.timelineId && m.id != updated.id &&
          m.order == updated.order)).length == 0) = false := by
      simpa [List.length_eq_zero] using hfil
    simp only [reindexOrders, beq_iff_eq, heq, if_false, hlen, h1, if_true]
    refine List.map_congr_left ?_
    intro x hx
    have hb1 : (x.timelineId == updated.timelineId) = true := by simp [(htl x hx).1]
    have hb2 : (x.id != updated.id) = true := by simp [(htl x hx).2]
    simp only [hb1, hb2, Bool.true_and]
    by_cases hr : original.order + 1 ≤ x.order ∧ x.order ≤ updated.order
    · rw [if_pos hr]
      rw [if_pos]
      simp [hr.1, hr.2]
    · rw [if_neg hr]
      rw [if_neg]
      simp only [Bool.and_eq_true, decide_eq_true_eq]
      exact fun hc => hr ⟨hc.1, hc.2⟩
  · intro h1 h2
    have heq : ¬ original.order = updated.order := (ne_of_lt h1).symm
    obtain ⟨w, hw, hword⟩ := h2
    have hfil : rows.filter (fun m =>
        m.timelineId == updated.timelineId && m.id != updated.id &&
          m.order == updated.order) ≠ [] := by
      intro hnil
      rw [List.filter_eq_nil_iff] at hnil
      apply hnil w hw
      simp [(htl w hw).1, (htl w hw).2, hword]
    have hlen : ((rows.filter (fun m =>
        m.timelineId == updated.timelineId && m.id != updated.id &&
          m.order == updated.order)).length == 0) = false := by
      simpa [List.length_eq_zero] using hfil
    have hnlt : ¬ original.order < updated.order := not_lt_of_gt h1
    simp only [reindexOrders, beq_iff_eq, heq, if_false, hlen, hnlt]
    refine List.map_congr_left ?_
    intro x hx
    have hb1 : (x.timelineId == updated.timelineId) = true := by simp [(htl x hx).1]
    have hb2 : (x.id != updated.id) = true := by simp [(htl x hx).2]
    simp only [hb1, hb2, Bool.true_and]
    by_cases hr : updated.order ≤ x.order ∧ x.order ≤ original.order - 1
    · rw [if_pos hr]
      rw [if_pos]
      simp [hr.1, hr.2]
    · rw [if_neg hr]
      rw [if_neg]
      simp only [Bool.and_eq_true, decide_eq_true_eq]
      exact fun hc => hr ⟨hc.1, hc.2⟩

theorem reindexOrders_nodup (original updated : Milestone) (rows : List Milestone)
    (htl : ∀ x ∈ rows, x.timelineId = updated.timelineId ∧ x.id ≠ updated.id)
    (hM : ∀ x ∈ rows, x.order ≠ original.order)
    (hnd : (rows.map fun x => x.order).Nodup) :
    (updated.order :: (reindexOrders original updated rows).map fun x => x.order).Nodup := by
  have hcases := reindexOrders_cases original updated rows htl
  by_cases hMK : original.order = updated.order
  · rw [hcases.1 hMK]
    rw [List.nodup_cons]
    refine ⟨?_, hnd⟩
    intro hmem
    rcases List.mem_map.mp hmem with ⟨x, hx, hxo⟩
    exact hM x hx (hxo.trans hMK.symm)
  by_cases hocc : ∃ x ∈ rows, x.order = updated.order
  · rcases lt_or_gt_of_ne hMK with hlt | hgt
    · rw [hcases.2.2.1 hlt hocc]
      have hmm : ((rows.map fun x =>
          if original.order + 1 ≤ x.order ∧ x.order ≤ updated.order then
            { x with order := x.order - 1 } else x).map fun x => x.order) =
          (rows.map fun x => x.order).map fun o =>
            if original.order + 1 ≤ o ∧ o ≤ updated.order then o - 1 else o := by
        rw [List.map_map, List.map_map]
        refine List.map_congr_left ?_
        intro x _
        by_cases hr : original.order + 1 ≤ x.order ∧ x.order ≤ updated.order
        · simp [hr]
        · simp [hr]
      rw [List.nodup_cons, hmm]
      constructor
      · intro hmem
        rcases List.mem_map.mp hmem with ⟨o, ho, hoe⟩
        rcases List.mem_map.mp ho with ⟨x, hx, rfl⟩
        have hxM := hM x hx
        by_cases hr : original.order + 1 ≤ x.order ∧ x.order ≤ updated.order
        · rw [if_pos hr] at hoe; omega
        · rw [if_neg hr] at hoe; omega
      · refine List.Nodup.map_on ?_ hnd
        intro o1 h1 o2 h2 heq
        rcases List.mem_map.mp h1 with ⟨x1, hx1, rfl⟩
        rcases List.mem_map.mp h2 with ⟨x2, hx2, rfl⟩
        have hm1 := hM x1 hx1
        have hm2 := hM x2 hx2
        by_cases hr1 : original.order + 1 ≤ x1.order ∧ x1.order ≤ updated.order
        · by_cases hr2 : original.order + 1 ≤ x2.order ∧ x2.order ≤ updated.order
          · rw [if_pos hr1, if_pos hr2] at heq; omega
          · rw [if_pos hr1, if_neg hr2] at heq; omega
        · by_cases hr2 : original.order + 1 ≤ x2.order ∧ x2.order ≤ updated.order
          · rw [if_neg hr1, if_pos hr2] at heq; omega
          · rw [if_neg hr1, if_neg hr2] at heq; omega
    · rw [hcases.2.2.2 hgt hocc]
      have hmm : ((rows.map fun x =>
          if updated.order ≤ x.order ∧ x.order ≤ original.order - 1 then
            { x with order := x.order + 1 } else x).map fun x => x.order) =
          (rows.map fun x => x.order).map fun o =>
            if updated.order ≤ o ∧ o ≤ original.order - 1 then o + 1 else o := by
        rw [List.map_map, List.map_map]
        refine List.map_congr_left ?_
        intro x _
        by_cases hr : updated.order ≤ x.order ∧ x.order ≤ original.order - 1
        · simp [hr]
        · simp [hr]
      rw [List.nodup_cons, hmm]
      constructor
      · intro hmem
        rcases List.mem_map.mp hmem with ⟨o, ho, hoe⟩
        rcases List.mem_map.mp ho with ⟨x, hx, rfl⟩
        have hxM := hM x hx
        by_cases hr : updated.order ≤ x.order ∧ x.order ≤ original.order - 1
        · rw [if_pos hr] at hoe; omega
        · rw [if_neg hr] at hoe; omega
      · refine List.Nodup.map_on ?_ hnd
        intro o1 h1 o2 h2 heq
        rcases List.mem_map.mp h1 with ⟨x1, hx1, rfl⟩
        rcases List.mem_map.mp h2 with ⟨x2, hx2, rfl⟩
        have hm1 := hM x1 hx1
        have hm2 := hM x2 hx2
        by_cases hr1 : updated.order ≤ x1.order ∧ x1.order ≤ original.order - 1
        · by_cases hr2 : updated.order ≤ x2.order ∧ x2.order ≤ original.order - 1
          · rw [if_pos hr1, if_pos hr2] at heq; omega
          · rw [if_pos hr1, if_neg hr2] at heq; omega
        · by_cases hr2 : updated.order ≤ x2.order ∧ x2.order ≤ original.order - 1
          · rw [if_neg hr1, if_pos hr2] at heq; omega
          · rw [if_neg hr1, if_neg hr2] at heq; omega
  · push_neg at hocc
    rw [hcases.2.1 hocc]
    rw [List.nodup_cons]
    refine ⟨?_, hnd⟩
    intro hmem
    rcases List.mem_map.mp hmem with ⟨x, hx, hxo⟩
    exact hocc x hx hxo

end MilestoneUpdate

namespace MilestoneUpdate

/-- Claim C2: after any update that triggers the date cascade, the timeline's
endDate equals the endDate of the cascade's last milestone, which is a
milestone of maximal order in the timeline (the edited milestone itself when
no downstream milestone exists); the synchronizer persists the new endDate and
updatedBy when they differ from the stored ones and does nothing when they are
equal. -/
theorem timeline_endDate_sync
    (timeline : Timeline) (m : Milestone) (others : List Milestone)
    (p : UpdateParam) (today : Int) (userId : Nat) (r : UpdateResult)
    (hok : updateMilestone timeline m others p today userId = .ok r)
    (htrig : m.completionDate ≠ (resolveUpdate m p today userId).completionDate ∨
             m.duration ≠ (resolveUpdate m p today userId).duration)
    (htl : ∀ x ∈ others, x.timelineId = m.timelineId) :
    ∃ last,
      last ∈ r.updated :: r.otherMilestones ∧
      r.timeline.endDate = last.endDate ∧
      (∀ x ∈ r.updated :: r.otherMilestones, x.order ≤ last.order) ∧
      (last.endDate = timeline.endDate → r.timeline = timeline) ∧
      (last.endDate ≠ timeline.endDate →
        r.timeline = { endDate := last.endDate, updatedBy := last.updatedBy }) := by
  unfold updateMilestone at hok
  by_cases hval : completionDateInvalid m p
  · rw [if_pos hval] at hok; exact absurd hok (by simp)
  rw [if_neg hval] at hok
  have hcond : (m.completionDate != (resolveUpdate m p today userId).completionDate ||
      m.duration != (resolveUpdate m p today userId).duration) = true := by
    rcases htrig with h | h <;> simp [h]
  simp only [hcond, if_true] at hok
  rw [Except.ok.injEq] at hok
  subst hok
  set u := resolveUpdate m p today userId with hu
  set shifted := reindexOrders m u others with hshifted
  set cr := updateComingMilestones m u shifted with hcr
  set last := cr.lastTimelineMilestone with hlast
  set outs := cr.updatedMilestones with houts
  set keep := shifted.filter (fun x => !(isComing u x)) with hkeep
  have houts_eq : outs = cascadeList u.updatedBy (m.completionDate != u.completionDate)
      { startDate := milestoneNextStart u, firstMilestoneFound := false }
      (comingMilestones u shifted) := rfl
  have hmem_order : ∀ x ∈ outs, x.order ∈ (comingMilestones u shifted).map fun y => y.order := by
    intro x hx
    have : x.order ∈ outs.map fun y => y.order := List.mem_map_of_mem _ hx
    rwa [houts_eq, cascadeList_map_order] at this
  have hcoming_gt : ∀ o ∈ (comingMilestones u shifted).map (fun y => y.order), u.order < o := by
    intro o ho
    rcases List.mem_map.mp ho with ⟨y, hy, rfl⟩
    have := (comingMilestones_mem u shifted y).mp hy
    have hy2 := (List.mem_filter.mp this).2
    simp only [isComing, Bool.and_eq_true, decide_eq_true_eq] at hy2
    exact hy2.2
  have hpairwise_outs : List.Pairwise leOrder outs :=
    pairwise_leOrder_of_map_order_eq _ _
      (by rw [houts_eq, cascadeList_map_order]) (comingMilestones_sorted u shifted)
  have hlast_eq : last = outs.getLast?.getD u := updateComingMilestones_last m u shifted
  have hule : u.order ≤ last.order := by
    match houts0 : outs with
    | [] => rw [hlast_eq, houts0]; simp
    | a :: t =>
      rw [hlast_eq, houts0, List.getLast?_eq_getLast _ (by simp),
        Option.getD_some]
      have hmem : (a :: t).getLast (by simp) ∈ outs := by
        rw [houts0]; exact List.getLast_mem (by simp)
      exact le_of_lt (hcoming_gt _ (hmem_order _ hmem))
  refine ⟨last, ?_, ?_, ?_, ?_, ?_⟩
  · match houts0 : outs with
    | [] => rw [hlast_eq, houts0]; simp
    | a :: t =>
      rw [hlast_eq, houts0, List.getLast?_eq_getLast _ (by simp), Option.getD_some]
      have hmem : (a :: t).getLast (by simp) ∈ outs := by
        rw [houts0]; exact List.getLast_mem (by simp)
      rw [houts0] at hmem
      simp only [List.mem_cons]
      right
      exact List.mem_append_right keep hmem
  · show (syncTimeline timeline last).endDate = last.endDate
    unfold syncTimeline
    split_ifs with h
    · rfl
    · simp at h; exact h.symm
  · intro x hx
    rcases List.mem_cons.mp hx with rfl | hx'
    · exact hule
    rcases List.mem_append.mp hx' with hk | ho
    · have hnc := (List.mem_filter.mp hk).2
      have hxs : x ∈ shifted := (List.mem_filter.mp hk).1
      rcases reindexOrders_mem m u others x hxs with ⟨y, hy, hxy, _⟩
      have hxtl : x.timelineId = u.timelineId := by
        rw [hxy, htl y hy, hu, resolveUpdate_timelineId]
      simp only [isComing, hxtl, Bool.not_and, Bool.or_eq_true, Bool.not_eq_true',
        beq_self_eq_true, Bool.not_true, Bool.false_or, decide_eq_false_iff_not,
        not_lt] at hnc
      exact le_trans hnc hule
    · have hne : outs ≠ [] := by intro h0; rw [h0] at ho; exact absurd ho (by simp)
      have : x.order ≤ (outs.getLast hne).order :=
        pairwise_le_getLast outs hpairwise_outs x ho hne
      rwa [hlast_eq, List.getLast?_eq_getLast _ hne, Option.getD_some]
  · intro heq
    show syncTimeline timeline last = timeline
    unfold syncTimeline
    split_ifs with h
    · simp [heq] at h
    · rfl
  · intro hne
    show syncTimeline timeline last = _
    unfold syncTimeline
    split_ifs with h
    · rfl
    · simp at h; exact absurd h hne

/-- Witness for C2: the Scenario A update (duration 5 → 10) triggers the
cascade, and the timeline ends with milestone 3 (order 3, endDate day 19739). -/
theorem timeline_endDate_sync_witness :
    ∃ last,
      last ∈ (okResult (updateMilestone tlA mA1 [mA2, mA3] pA 19800 7)).updated ::
          (okResult (updateMilestone tlA mA1 [mA2, mA3] pA 19800 7)).otherMilestones ∧
      (okResult (updateMilestone tlA mA1 [mA2, mA3] pA 19800 7)).timeline.endDate =
        last.endDate ∧
      (∀ x ∈ (okResult (updateMilestone tlA mA1 [mA2, mA3] pA 19800 7)).updated ::
          (okResult (updateMilestone tlA mA1 [mA2, mA3] pA 19800 7)).otherMilestones,
        x.order ≤ last.order) ∧
      (last.endDate = tlA.endDate →
        (okResult (updateMilestone tlA mA1 [mA2, mA3] pA 19800 7)).timeline = tlA) ∧
      (last.endDate ≠ tlA.endDate →
        (okResult (updateMilestone tlA mA1 [mA2, mA3] pA 19800 7)).timeline =
          { endDate := last.endDate, updatedBy := last.updatedBy }) :=
  timeline_endDate_sync tlA mA1 [mA2, mA3] pA 19800 7 _ (by rfl) (by decide) (by decide)

end MilestoneUpdate

namespace MilestoneUpdate

/-- Claim C3: when a milestone's order changes from M to K and slot K is
occupied by another milestone of the same timeline, every other milestone with
order in the interval from M+1 to K is decremented by one when K is greater
than M, and every other milestone with order in the interval from K to M-1 is
incremented by one when K is less than M; when the slot is free, or the
requested order equals the previous one, no other milestone's order changes. -/
theorem reindex_shift_ranges (original updated : Milestone) (rows : List Milestone)
    (htl : ∀ x ∈ rows, x.timelineId = updated.timelineId ∧ x.id ≠ updated.id) :
    (original.order = updated.order → reindexOrders original updated rows = rows) ∧
    ((∀ x ∈ rows, x.order ≠ updated.order) → reindexOrders original updated rows = rows) ∧
    (original.order < updated.order → (∃ x ∈ rows, x.order = updated.order) →
      reindexOrders original updated rows = rows.map fun x =>
        if original.order + 1 ≤ x.order ∧ x.order ≤ updated.order then
          { x with order := x.order - 1 } else x) ∧
    (updated.order < original.order → (∃ x ∈ rows, x.order = updated.order) →
      reindexOrders original updated rows = rows.map fun x =>
        if updated.order ≤ x.order ∧ x.order ≤ original.order - 1 then
          { x with order := x.order + 1 } else x) :=
  reindexOrders_cases original updated rows htl

/-- Witness for C3, Scenario B: moving the order-2 milestone to the occupied
slot 4 shifts the milestones at orders 3 and 4 down to orders 2 and 3 and
leaves the order-1 milestone alone. -/
theorem reindex_shift_ranges_witness :
    reindexOrders mOrd2 { mOrd2 with order := 4 } [mOrd1, mOrd3, mOrd4] =
      [mOrd1, { mOrd3 with order := 2 }, { mOrd4 with order := 3 }] := by
  have h := (reindex_shift_ranges mOrd2 { mOrd2 with order := 4 } [mOrd1, mOrd3, mOrd4]
    (by decide)).2.2.1 (by decide) (by decide)
  rw [h]
  decide

/-- Claim C4: for a timeline whose milestones have pairwise-distinct orders
before the update, after the update completes (including any order
reindexing) no two milestones of the timeline share an order — with all rows
in one timeline, distinct orders are exactly distinct (timelineId, order)
pairs. -/
theorem order_uniqueness
    (timeline : Timeline) (m : Milestone) (others : List Milestone)
    (p : UpdateParam) (today : Int) (userId : Nat) (r : UpdateResult)
    (hok : updateMilestone timeline m others p today userId = .ok r)
    (htl : ∀ x ∈ others, x.timelineId = m.timelineId ∧ x.id ≠ m.id)
    (hnd : ((m :: others).map fun x => x.order).Nodup) :
    ((r.updated :: r.otherMilestones).map fun x => x.order).Nodup := by
  unfold updateMilestone at hok
  by_cases hval : completionDateInvalid m p
  · rw [if_pos hval] at hok; exact absurd hok (by simp)
  rw [if_neg hval] at hok
  set u := resolveUpdate m p today userId with hu
  set shifted := reindexOrders m u others with hshifted
  have hpre : (u.order :: shifted.map fun x => x.order).Nodup := by
    rw [List.map_cons, List.nodup_cons] at hnd
    refine reindexOrders_nodup m u others ?_ ?_ hnd.2
    · intro x hx
      exact ⟨(htl x hx).1.trans (resolveUpdate_timelineId m p today userId).symm,
        fun h => (htl x hx).2 (h.trans (resolveUpdate_id m p today userId))⟩
    · intro x hx h
      exact hnd.1 (List.mem_map.mpr ⟨x, hx, h⟩)
  by_cases hcas : (m.completionDate != u.completionDate || m.duration != u.duration) = true
  · rw [if_pos hcas] at hok
    rw [Except.ok.injEq] at hok
    subst hok
    simp only [List.map_cons]
    set cr := updateComingMilestones m u shifted with hcr
    set outs := cr.updatedMilestones with houts
    set keep := shifted.filter (fun x => !(isComing u x)) with hkeep
    have houts_eq : outs = cascadeList u.updatedBy (m.completionDate != u.completionDate)
        { startDate := milestoneNextStart u, firstMilestoneFound := false }
        (comingMilestones u shifted) := rfl
    have p3 : (outs.map fun x => x.order).Perm
        ((shifted.filter (isComing u)).map fun x => x.order) := by
      rw [houts_eq, cascadeList_map_order]
      exact (List.perm_insertionSort leOrder _).map _
    have pchain : ((keep ++ outs).map fun x => x.order).Perm
        (shifted.map fun x => x.order) := by
      rw [List.map_append]
      calc ((keep.map fun x => x.order) ++ outs.map fun x => x.order).Perm
            ((keep.map fun x => x.order) ++
              (shifted.filter (isComing u)).map fun x => x.order) :=
          List.Perm.append_left _ p3
        _ = ((shifted.filter fun x => !(isComing u x)) ++
              shifted.filter (isComing u)).map fun x => x.order := by
          rw [List.map_append, hkeep]
        _ ≈ ((shifted.filter (isComing u) ++
              shifted.filter fun x => !(isComing u x)).map fun x => x.order) := by
          exact (List.perm_append_comm).map _
        _ ≈ shifted.map fun x => x.order := (List.filter_append_perm _ _).map _
    have : (u.order :: (keep ++ outs).map fun x => x.order).Nodup :=
      ((pchain.cons u.order).symm).nodup hpre
    exact this
  · rw [if_neg hcas] at hok
    rw [Except.ok.injEq] at hok
    subst hok
    simpa using hpre

/-- Witness for C4: the Scenario B move (order 2 to occupied order 4) ends
with the four milestones at pairwise-distinct orders. -/
theorem order_uniqueness_witness :
    (((okResult (updateMilestone tlOrd mOrd2 [mOrd1, mOrd3, mOrd4] pOrd 19800 7)).updated ::
      (okResult (updateMilestone tlOrd mOrd2 [mOrd1, mOrd3, mOrd4] pOrd 19800 7)).otherMilestones).map
        fun x => x.order).Nodup :=
  order_uniqueness tlOrd mOrd2 [mOrd1, mOrd3, mOrd4] pOrd 19800 7 _
    (by rfl) (by decide) (by decide)

end MilestoneUpdate

namespace MilestoneUpdate

/-- Claim C5: in a cascade, when the edited milestone's completionDate did not
change (a duration-only trigger) no downstream status changes; at most one
downstream milestone has its status changed, and any changed one is the first
non-hidden downstream milestone and is set to ACTIVE; and every downstream
milestone, hidden or not, still has its startDate chained one day after its
predecessor's completionDate-or-endDate and its endDate recomputed from its
duration. -/
theorem cascade_single_activation (original updated : Milestone) (rows : List Milestone) :
    (original.completionDate = updated.completionDate →
      ∀ i, (((updateComingMilestones original updated rows).updatedMilestones.getD i default)).status =
        ((comingMilestones updated rows).getD i default).status) ∧
    (∀ i j,
      (((updateComingMilestones original updated rows).updatedMilestones.getD i default)).status ≠
        ((comingMilestones updated rows).getD i default).status →
      (((updateComingMilestones original updated rows).updatedMilestones.getD j default)).status ≠
        ((comingMilestones updated rows).getD j default).status →
      i = j) ∧
    (∀ i,
      (((updateComingMilestones original updated rows).updatedMilestones.getD i default)).status ≠
        ((comingMilestones updated rows).getD i default).status →
      ((comingMilestones updated rows).getD i default).hidden = false ∧
        (∀ j, j < i → ((comingMilestones updated rows).getD j default).hidden = true) ∧
        (((updateComingMilestones original updated rows).updatedMilestones.getD i default)).status = ACTIVE) ∧
    (∀ i, i < (comingMilestones updated rows).length →
      (((updateComingMilestones original updated rows).updatedMilestones.getD i default)).startDate =
        (if i = 0 then milestoneNextStart updated
         else milestoneNextStart
          ((updateComingMilestones original updated rows).updatedMilestones.getD (i - 1) default))) ∧
    (∀ x ∈ (updateComingMilestones original updated rows).updatedMilestones,
      x.endDate = x.startDate + (x.duration - 1)) := by
  simp only [updateComingMilestones]
  by_cases hcd : original.completionDate = updated.completionDate
  · have hb : (original.completionDate != updated.completionDate) = false := by
      simp [hcd]
    rw [hb]
    refine ⟨?_, ?_, ?_, ?_, ?_⟩
    · intro _ i
      exact cascadeList_status_unchanged _ _ _ _ i (Or.inl rfl)
    · intro i j hi _
      exact absurd (cascadeList_status_unchanged _ _ _ _ i (Or.inl rfl)) hi
    · intro i hi
      exact absurd (cascadeList_status_unchanged _ _ _ _ i (Or.inl rfl)) hi
    · intro i hi
      exact cascadeList_startDate_rec _ _ _ _ i hi
    · exact cascadeList_mem_consistent _ _ _ _
  · have hb : (original.completionDate != updated.completionDate) = true := by
      simp [hcd]
    rw [hb]
    refine ⟨?_, ?_, ?_, ?_, ?_⟩
    · intro h; exact absurd h hcd
    · intro i j hi hj
      obtain ⟨_, hnh_i, hpre_i, _⟩ := cascadeList_activation _ _ _ i rfl hi
      obtain ⟨_, hnh_j, hpre_j, _⟩ := cascadeList_activation _ _ _ j rfl hj
      rcases Nat.lt_trichotomy i j with h | h | h
      · exact absurd (hpre_j i h) (by rw [hnh_i]; exact Bool.false_ne_true)
      · exact h
      · exact absurd (hpre_i j h) (by rw [hnh_j]; exact Bool.false_ne_true)
    · intro i hi
      obtain ⟨_, hnh, hpre, hact⟩ := cascadeList_activation _ _ _ i rfl hi
      exact ⟨hnh, hpre, hact⟩
    · intro i hi
      exact cascadeList_startDate_rec _ _ _ _ i hi
    · exact cascadeList_mem_consistent _ _ _ _

/-- Claim C6: in the field merge, a status transition to COMPLETED defaults
the completionDate to today when none (or null) was supplied; a transition to
ACTIVE sets the startDate to today; when the status did not change but a
supplied non-null completionDate differs from the stored one the status is
forced to COMPLETED; and when the status did change the resolved status is the
requested one, so the forcing never fires. -/
theorem merge_status_rules (m : Milestone) (p : UpdateParam) (today : Int) (userId : Nat) :
    (statusChanged m p = true → p.status = some COMPLETED →
      p.completionDate = none ∨ p.completionDate = some none →
      (resolveUpdate m p today userId).completionDate = some today) ∧
    (statusChanged m p = true → p.status = some ACTIVE →
      (resolveUpdate m p today userId).startDate = today) ∧
    (statusChanged m p = false → completionDateChangedReq m p = true →
      (resolveUpdate m p today userId).status = COMPLETED) ∧
    (statusChanged m p = true →
      (resolveUpdate m p today userId).status = p.status.getD m.status) := by
  refine ⟨?_, ?_, ?_, ?_⟩
  · intro h1 h2 h3
    rcases h3 with h3 | h3 <;> simp [resolveUpdate, h1, h2, h3]
  · intro h1 h2
    simp [resolveUpdate, h1, h2]
  · intro h1 h2
    simp [resolveUpdate, h1, h2]
  · intro h1
    simp [resolveUpdate, h1]

/-- Claim C7: a supplied completionDate strictly earlier than the stored
startDate makes the whole update reject with status 422; the transaction
aborts, so the error carries no state change. -/
theorem completionDate_before_start_rejected
    (timeline : Timeline) (m : Milestone) (others : List Milestone)
    (p : UpdateParam) (today : Int) (userId : Nat) (d : Int)
    (hd : p.completionDate = some (some d)) (hlt : d < m.startDate) :
    updateMilestone timeline m others p today userId =
      .error { status := 422
               message := "The milestone completionDate should be greater or equal than the startDate." } := by
  unfold updateMilestone
  rw [if_pos]
  simp [completionDateInvalid, hd, hlt]

/-- Witness for C7: completionDate day 19000 precedes Scenario A milestone 1's
startDate day 19723 and the update is rejected with 422. -/
theorem completionDate_before_start_rejected_witness :
    updateMilestone tlA mA1 [mA2, mA3] { completionDate := some (some 19000) } 19800 7 =
      .error { status := 422
               message := "The milestone completionDate should be greater or equal than the startDate." } :=
  completionDate_before_start_rejected tlA mA1 [mA2, mA3]
    { completionDate := some (some 19000) } 19800 7 19000 rfl (by decide)

/-- Counterexample to C8 as stated: a status transition to ACTIVE on a
consistent stored milestone (endDate 104 = 100 + 5 - 1) succeeds but resets
startDate to today (day 200) without recomputing endDate, leaving
endDate 104 different from startDate + duration - 1 = 204. -/
theorem activation_breaks_date_consistency :
    mAct.endDate = mAct.startDate + (mAct.duration - 1) ∧
    (updateMilestone tlAct mAct [] pAct 200 7).toOption.isSome = true ∧
    (okResult (updateMilestone tlAct mAct [] pAct 200 7)).updated.endDate ≠
      (okResult (updateMilestone tlAct mAct [] pAct 200 7)).updated.startDate +
        ((okResult (updateMilestone tlAct mAct [] pAct 200 7)).updated.duration - 1) := by
  decide

/-- Claim C8 as amended: after a successful update, every downstream milestone
rewritten by the date cascade satisfies endDate = startDate + (duration - 1);
the edited milestone satisfies it provided it did before the update and the
update is not a status transition to ACTIVE — such a transition resets
startDate to today without recomputing endDate and can leave the two
inconsistent. -/
theorem endDate_consistency_amended
    (timeline : Timeline) (m : Milestone) (others : List Milestone)
    (p : UpdateParam) (today : Int) (userId : Nat) (r : UpdateResult)
    (hok : updateMilestone timeline m others p today userId = .ok r) :
    ((m.completionDate ≠ r.updated.completionDate ∨ m.duration ≠ r.updated.duration) →
      ∀ x ∈ r.otherMilestones, isComing r.updated x = true →
        x.endDate = x.startDate + (x.duration - 1)) ∧
    (m.endDate = m.startDate + (m.duration - 1) →
      ¬(statusChanged m p = true ∧ p.status = some ACTIVE) →
      r.updated.endDate = r.updated.startDate + (r.updated.duration - 1)) := by
  unfold updateMilestone at hok
  by_cases hval : completionDateInvalid m p
  · rw [if_pos hval] at hok; exact absurd hok (by simp)
  rw [if_neg hval] at hok
  set u := resolveUpdate m p today userId with hu
  have hupd : ∀ (hcons : m.endDate = m.startDate + (m.duration - 1))
      (hnact : ¬(statusChanged m p = true ∧ p.status = some ACTIVE)),
      u.endDate = u.startDate + (u.duration - 1) := by
    intro hcons hnact
    have hstart : u.startDate = m.startDate := by
      rw [hu]
      simp only [resolveUpdate]
      rw [if_neg hnact]
    by_cases hdur : durationChanged m p = true
    · have hend : u.endDate = m.startDate + (p.duration.getD m.duration - 1) := by
        rw [hu]; simp only [resolveUpdate]; rw [if_pos hdur]
      have hd2 : u.duration = p.duration.getD m.duration := rfl
      rw [hend, hstart, hd2]
    · have hdur' : durationChanged m p = false := by simpa using hdur
      have hend : u.endDate = m.endDate := by
        rw [hu]; simp only [resolveUpdate]; rw [if_neg (by simp [hdur'])]
      have hd2 : u.duration = m.duration := by
        have h0 : u.duration = p.duration.getD m.duration := rfl
        rw [h0, duration_getD_of_not_changed m p hdur']
      rw [hend, hstart, hd2, hcons]
  by_cases hcas : (m.completionDate != u.completionDate || m.duration != u.duration) = true
  · rw [if_pos hcas] at hok
    rw [Except.ok.injEq] at hok
    subst hok
    refine ⟨?_, fun hcons hnact => hupd hcons hnact⟩
    intro _ x hx hcoming
    rcases List.mem_append.mp hx with hk | ho
    · have hne := (List.mem_filter.mp hk).2
      rw [hcoming] at hne
      simp at hne
    · exact cascadeList_mem_consistent _ _ _ _ x ho
  · rw [if_neg hcas] at hok
    rw [Except.ok.injEq] at hok
    subst hok
    refine ⟨?_, fun hcons hnact => hupd hcons hnact⟩
    intro htrig
    exfalso
    apply hcas
    rcases htrig with h | h <;> simp_all

/-- Witness for the amended C8: in Scenario A (duration change, no ACTIVE
transition) the edited milestone stays date-consistent. -/
theorem endDate_consistency_amended_witness :
    (okResult (updateMilestone tlA mA1 [mA2, mA3] pA 19800 7)).updated.endDate =
      (okResult (updateMilestone tlA mA1 [mA2, mA3] pA 19800 7)).updated.startDate +
        ((okResult (updateMilestone tlA mA1 [mA2, mA3] pA 19800 7)).updated.duration - 1) :=
  (endDate_consistency_amended tlA mA1 [mA2, mA3] pA 19800 7 _ (by rfl)).2
    (by decide) (by decide)

end MilestoneUpdate

namespace MilestoneUpdate

/-- Claim C9: when the resolved completionDate and duration equal the stored
ones (and the request passes validation), the update runs no cascade and
leaves the timeline untouched; when additionally the resolved order equals the
stored order, the other milestones are returned exactly as stored — a no-op or
order-only or text-only edit never mutates downstream rows or the timeline. -/
theorem noop_edit_frame
    (timeline : Timeline) (m : Milestone) (others : List Milestone)
    (p : UpdateParam) (today : Int) (userId : Nat)
    (hval : completionDateInvalid m p = false)
    (hcd : m.completionDate = (resolveUpdate m p today userId).completionDate)
    (hdur : m.duration = (resolveUpdate m p today userId).duration) :
    updateMilestone timeline m others p today userId =
      .ok { original := m
            updated := resolveUpdate m p today userId
            otherMilestones := reindexOrders m (resolveUpdate m p today userId) others
            timeline := timeline } ∧
    ((resolveUpdate m p today userId).order = m.order →
      reindexOrders m (resolveUpdate m p today userId) others = others) := by
  constructor
  · unfold updateMilestone
    rw [if_neg (by simp [hval])]
    rw [if_neg (by simp [hcd, hdur])]
  · intro ho
    unfold reindexOrders
    rw [if_pos]
    simp [ho]

/-- Witness for C9: an empty request on Scenario A changes neither the
downstream milestones nor the timeline. -/
theorem noop_edit_frame_witness :
    updateMilestone tlA mA1 [mA2, mA3] {} 19800 7 =
      .ok { original := mA1
            updated := resolveUpdate mA1 {} 19800 7
            otherMilestones := [mA2, mA3]
            timeline := tlA } := by
  have h := noop_edit_frame tlA mA1 [mA2, mA3] {} 19800 7 (by decide) (by decide) (by decide)
  rw [h.1, h.2 (by decide)]

/-- Claim C10: supplying completionDate null to clear a stored completionDate
passes the validation guard, does not force the status to COMPLETED (the
merge-time changed flag needs a non-null value), resolves the completionDate
to null, yet takes the cascade branch — the cascade trigger and its activation
flag compare original and updated completionDate for plain inequality — so
the first non-hidden downstream milestone is set to ACTIVE. -/
theorem clearing_completionDate
    (timeline : Timeline) (m : Milestone) (others : List Milestone)
    (p : UpdateParam) (today : Int) (userId : Nat) (c : Int)
    (hst : m.completionDate = some c)
    (hp : p.completionDate = some none)
    (hs : p.status = none) :
    completionDateInvalid m p = false ∧
    (resolveUpdate m p today userId).status = m.status ∧
    (resolveUpdate m p today userId).completionDate = none ∧
    updateMilestone timeline m others p today userId =
      .ok { original := m
            updated := resolveUpdate m p today userId
            otherMilestones :=
              ((reindexOrders m (resolveUpdate m p today userId) others).filter
                fun x => !(isComing (resolveUpdate m p today userId) x)) ++
              (updateComingMilestones m (resolveUpdate m p today userId)
                (reindexOrders m (resolveUpdate m p today userId) others)).updatedMilestones
            timeline := syncTimeline timeline
              (updateComingMilestones m (resolveUpdate m p today userId)
                (reindexOrders m (resolveUpdate m p today userId) others)).lastTimelineMilestone } ∧
    (∀ i, i < (comingMilestones (resolveUpdate m p today userId)
        (reindexOrders m (resolveUpdate m p today userId) others)).length →
      ((comingMilestones (resolveUpdate m p today userId)
        (reindexOrders m (resolveUpdate m p today userId) others)).getD i default).hidden = false →
      (∀ j, j < i → ((comingMilestones (resolveUpdate m p today userId)
        (reindexOrders m (resolveUpdate m p today userId) others)).getD j default).hidden = true) →
      ((updateComingMilestones m (resolveUpdate m p today userId)
        (reindexOrders m (resolveUpdate m p today userId) others)).updatedMilestones.getD
          i default).status = ACTIVE) := by
  have hval : completionDateInvalid m p = false := by
    simp [completionDateInvalid, hp]
  have hsch : statusChanged m p = false := by
    simp [statusChanged, hs]
  have hccr : completionDateChangedReq m p = false := by
    simp [completionDateChangedReq, hp]
  have hstat : (resolveUpdate m p today userId).status = m.status := by
    simp [resolveUpdate, hsch, hccr, hs]
  have hcompl : (resolveUpdate m p today userId).completionDate = none := by
    simp [resolveUpdate, hsch, hp, hs]
  have hcd : (m.completionDate != (resolveUpdate m p today userId).completionDate) = true := by
    rw [hst, hcompl]
    simp
  refine ⟨hval, hstat, hcompl, ?_, ?_⟩
  · unfold updateMilestone
    rw [if_neg (by simp [hval])]
    rw [if_pos (by simp [hcd])]
  · intro i hi hnh hpre
    rw [updateComingMilestones_updatedMilestones, hcd]
    exact cascadeList_activation_fires _ _ _ i rfl hi hnh hpre

/-- Witness for C10: clearing milestone 1's completionDate in the Scenario E
timeline (hidden milestone at order 2) activates the milestone at order 3,
index 1 of the downstream list. -/
theorem clearing_completionDate_witness :
    ((updateComingMilestones mE1 (resolveUpdate mE1 pE 19800 7)
      (reindexOrders mE1 (resolveUpdate mE1 pE 19800 7) [mE2, mE3])).updatedMilestones.getD
        1 default).status = ACTIVE := by
  have h := clearing_completionDate tlE mE1 [mE2, mE3] pE 19800 7 19728 rfl rfl rfl
  exact h.2.2.2.2 1 (by decide) (by decide) (fun j hj => by
    have hj0 : j = 0 := Nat.lt_one_iff.mp hj
    rw [hj0]
    decide)

end MilestoneUpdate
